import Mathlib

/-!
Shallow embedding of the cross-page selection tracker of the Artworks Data
Table application (src/src/App.tsx).  The React component state is modelled
as an explicit `AppState` record and each event handler as a state
transformer.  The JavaScript `Set<number>` of selected identifiers becomes a
`Finset Int`, arrays become lists, and JavaScript `parseInt` is modelled by
`parseIntJS`.  React's `setX` calls are modelled by their net effect on the
state record (React batches the updates of one handler, so only the final
value of each field matters).
-/

/-- A record of the artworks API, as in the `Artwork` interface of
`App.tsx`.  Only `id` is ever inspected by the selection logic. -/
structure Artwork where
  id : Int
  title : String
  place_of_origin : String
  artist_display : String
  inscriptions : String
  date_start : Int
  date_end : Int
deriving DecidableEq

/-- The component state of `App`: the `useState` hooks `artworks`,
`loading`, `totalRecords`, `currentPage`, `selectedRows`, `selectCount`
and `globalSelectedIds`. -/
structure AppState where
  artworks : List Artwork
  loading : Bool
  totalRecords : Int
  currentPage : Int
  selectedRows : List Artwork
  selectCount : String
  globalSelectedIds : Finset Int
deriving DecidableEq

/-- The identifiers of a list of records, in order
(`records.map(a => a.id)`). -/
def idsOf (l : List Artwork) : List Int := l.map (fun a => a.id)

/-- Value of a list of decimal digit characters (most significant first). -/
def digitsVal (ds : List Char) : Nat :=
  ds.foldl (fun acc c => acc * 10 + (c.toNat - 48)) 0

/-- The maximal leading decimal-digit run of `cs`, or `none` when there is
no leading digit. -/
def parseUnsigned (cs : List Char) : Option Nat :=
  let ds := cs.takeWhile Char.isDigit
  if ds.isEmpty then none else some (digitsVal ds)

/-- Model of JavaScript `parseInt(s)` at the default radix 10: skip leading
whitespace, read an optional sign, then take the maximal decimal-digit
prefix; `none` models `NaN` (no digit found).  The hexadecimal `0x`-prefix
form of `parseInt` is not modelled: no claim and no input of this program
exercises it. -/
def parseIntJS (s : String) : Option Int :=
  match s.data.dropWhile (fun c => c = ' ' || c = '\t' || c = '\n' || c = '\r') with
  | '+' :: t => (parseUnsigned t).map (fun n => (n : Int))
  | '-' :: t => (parseUnsigned t).map (fun n => -(n : Int))
  | t => (parseUnsigned t).map (fun n => (n : Int))

/-- The `try` branch of `fetchData` on a successful fetch (App.tsx 47-59):
store the fetched records and total, and reconcile `selectedRows` to those
fetched records whose id is in `globalSelectedIds`, in page order
(`data.data?.filter(artwork => globalSelectedIds.has(artwork.id))`).
The `finally` branch clears `loading`. -/
def fetchSuccess (data : List Artwork) (total : Int) (st : AppState) : AppState :=
  { st with
    artworks := data
    totalRecords := total
    selectedRows := data.filter (fun a => a.id ∈ st.globalSelectedIds)
    loading := false }

/-- The `catch` branch of `fetchData` (App.tsx 61-64): substitute an empty
page with zero total; `selectedRows` and `globalSelectedIds` are not
touched.  The `finally` branch clears `loading`. -/
def fetchFailure (st : AppState) : AppState :=
  { st with artworks := [], totalRecords := 0, loading := false }

/-- `onPageChange` (App.tsx 84-87): store the 1-based page number. -/
def onPageChange (eventPage : Int) (st : AppState) : AppState :=
  { st with currentPage := eventPage + 1 }

/-- The start of `fetchData` (App.tsx 48): `setLoading(true)`; the request
is now in flight. -/
def startFetch (st : AppState) : AppState :=
  { st with loading := true }

/-- `onSelectionChange` (App.tsx 89-104): store the page's new selection as
the view, then in `globalSelectedIds` delete every id of the loaded page
and add every id of the new selection. -/
def onSelectionChange (newSelection : List Artwork) (st : AppState) : AppState :=
  let afterDelete := st.artworks.foldl (fun s a => s.erase a.id) st.globalSelectedIds
  let newGlobalIds := newSelection.foldl (fun s a => insert a.id s) afterDelete
  { st with selectedRows := newSelection, globalSelectedIds := newGlobalIds }

/-- `handleSelectAll` (App.tsx 106-122): if the page's view already has the
full page length, delete all of the page's ids and empty the view;
otherwise add all of the page's ids and set the view to the whole page. -/
def handleSelectAll (st : AppState) : AppState :=
  if st.selectedRows.length = st.artworks.length then
    { st with
      globalSelectedIds := st.artworks.foldl (fun s a => s.erase a.id) st.globalSelectedIds
      selectedRows := [] }
  else
    { st with
      globalSelectedIds := st.artworks.foldl (fun s a => insert a.id s) st.globalSelectedIds
      selectedRows := st.artworks }

/-- `handleCustomSelection` (App.tsx 124-146): parse `selectCount`; on
`NaN` or a non-positive value return with no state change.  Otherwise build
the new id set from scratch out of the first
`min(count, artworks.length)` records of the loaded page
(`artworks.slice(0, Math.min(remainingCount, artworks.length))`), making it
the whole `globalSelectedIds` and the view, and clear the input field.  The
transient `setGlobalSelectedIds(new Set())` / `setSelectedRows([])` pair at
lines 128-129 is overwritten by the later setters of the same handler, and
the unused locals `itemsPerPage` / `pageToCheck` have no effect. -/
def handleCustomSelection (st : AppState) : AppState :=
  match parseIntJS st.selectCount with
  | none => st
  | some count =>
    if count ≤ 0 then st
    else
      let currentPageSelection := st.artworks.take (min count.toNat st.artworks.length)
      { st with
        globalSelectedIds := currentPageSelection.foldl (fun s a => insert a.id s) ∅
        selectedRows := currentPageSelection
        selectCount := "" }

/-- Navigation away to another page and back, both fetches succeeding:
`onPageChange`, the effect-triggered fetch start and its successful
response, twice over. -/
def navigateAwayAndBack (pA pB tA tB : Int) (pageA pageB : List Artwork)
    (st : AppState) : AppState :=
  fetchSuccess pageA tA (startFetch (onPageChange pA
    (fetchSuccess pageB tB (startFetch (onPageChange pB st)))))

/-- The reconciliation invariant: the view `selectedRows` is exactly the
ordered filter of the loaded records by membership in
`globalSelectedIds`. -/
def ViewConsistent (st : AppState) : Prop :=
  st.selectedRows = st.artworks.filter (fun a => a.id ∈ st.globalSelectedIds)

/-- A record with a given id and empty display fields, for concrete
instantiations. -/
def mkArt (n : Int) : Artwork := ⟨n, "", "", "", "", 0, 0⟩

/-- The initial component state: everything empty, page 1. -/
def baseState : AppState :=
  { artworks := [], loading := false, totalRecords := 0, currentPage := 1,
    selectedRows := [], selectCount := "", globalSelectedIds := ∅ }

/-- Concrete state for C1: page of three records, input "2", an id from
another page selected. -/
def stC1 : AppState :=
  { baseState with
    artworks := [mkArt 1, mkArt 2, mkArt 3]
    selectCount := "2"
    globalSelectedIds := ({99} : Finset Int) }

/-- Concrete state for the C2 counterexample: one record on the page, id 99
selected on another page, input "1". -/
def stC2 : AppState :=
  { baseState with
    artworks := [mkArt 1]
    selectCount := "1"
    globalSelectedIds := ({99} : Finset Int) }

/-- Concrete state for the C2 witness. -/
def stC2w : AppState :=
  { baseState with
    artworks := [mkArt 1, mkArt 2]
    globalSelectedIds := ({99} : Finset Int) }

/-- Concrete state for the C3 witness. -/
def stC3 : AppState :=
  { baseState with
    artworks := [mkArt 1, mkArt 2]
    globalSelectedIds := ({1, 99} : Finset Int) }

/-- Concrete state for the C4 counterexample: a partially selected page,
with a consistent view. -/
def stC4 : AppState :=
  { baseState with
    artworks := [mkArt 1, mkArt 2]
    selectedRows := [mkArt 1]
    globalSelectedIds := ({1} : Finset Int) }

/-- Concrete state for the C4 witness: a fully selected page. -/
def stC4w : AppState :=
  { baseState with
    artworks := [mkArt 1]
    selectedRows := [mkArt 1]
    globalSelectedIds := ({1} : Finset Int) }

/-- Concrete state for the C7 witness. -/
def stC7 : AppState :=
  { baseState with artworks := [mkArt 1, mkArt 2] }

/-- Concrete state for the C9 witness. -/
def stC9 : AppState :=
  { baseState with artworks := [mkArt 1, mkArt 2] }

/-- Concrete state for the C10 witness: input with a fractional tail. -/
def stC10 : AppState :=
  { baseState with
    artworks := [mkArt 1, mkArt 2, mkArt 3, mkArt 4]
    selectCount := "3.7" }

/-- Page-1 records of the C8 scenario. -/
def page1Recs : List Artwork := [mkArt 1]

/-- Page-2 records of the C8 scenario. -/
def page2Recs : List Artwork := [mkArt 2]

theorem mem_foldl_erase (l : List Artwork) (g : Finset Int) (i : Int) :
    i ∈ l.foldl (fun s a => s.erase a.id) g ↔ i ∈ g ∧ i ∉ idsOf l := by
  induction l generalizing g with
  | nil => simp [idsOf]
  | cons a l ih =>
      simp only [List.foldl_cons, ih, Finset.mem_erase, idsOf, List.map_cons,
        List.mem_cons]
      constructor
      · rintro ⟨⟨hne, hg⟩, hnot⟩
        exact ⟨hg, by rintro (h | h) <;> [exact hne h; exact hnot h]⟩
      · rintro ⟨hg, hnot⟩
        exact ⟨⟨fun h => hnot (Or.inl h), hg⟩, fun h => hnot (Or.inr h)⟩

theorem mem_foldl_insert (l : List Artwork) (g : Finset Int) (i : Int) :
    i ∈ l.foldl (fun s a => insert a.id s) g ↔ i ∈ g ∨ i ∈ idsOf l := by
  induction l generalizing g with
  | nil => simp [idsOf]
  | cons a l ih =>
      simp only [List.foldl_cons, ih, Finset.mem_insert, idsOf, List.map_cons,
        List.mem_cons]
      tauto

theorem foldl_insert_empty (l : List Artwork) :
    l.foldl (fun s a => insert a.id s) ∅ = (idsOf l).toFinset := by
  ext i
  simp [mem_foldl_insert]

/-- C5: for every successfully fetched page and Selection Set, the view is
exactly the ordered subsequence of the page's records whose id is in the
Selection Set, and an empty page yields an empty view. -/
theorem reconcile_correct (st : AppState) (data : List Artwork) (total : Int) :
    ((fetchSuccess data total st).selectedRows).Sublist data ∧
      (∀ a : Artwork, a ∈ (fetchSuccess data total st).selectedRows ↔
        a ∈ data ∧ a.id ∈ st.globalSelectedIds) ∧
      (fetchSuccess [] total st).selectedRows = [] := by
  refine ⟨List.filter_sublist data, fun a => ?_, rfl⟩
  simp [fetchSuccess]

/-- C6: a failed fetch substitutes an empty page with zero total and leaves
the Selection Set exactly as it was; the handler is total (the exception is
absorbed by the catch branch modelled here). -/
theorem fetchFailure_preserves_selection (st : AppState) :
    (fetchFailure st).globalSelectedIds = st.globalSelectedIds ∧
      (fetchFailure st).artworks = [] ∧
      (fetchFailure st).totalRecords = 0 :=
  ⟨rfl, rfl, rfl⟩

/-- C8: `fetchData` has no stale-response guard.  With a page-1 request in
flight, the user navigates to page 2; the page-2 response arrives and is
applied, then the stale page-1 response arrives and is applied too,
overwriting the current page's records although the latest requested page
is 2.  The claim says such a response is discarded; the code applies it. -/
theorem stale_response_applied :
    (fetchSuccess page1Recs 1 (fetchSuccess page2Recs 1
        (startFetch (onPageChange 1 (startFetch (onPageChange 0 baseState)))))).currentPage = 2 ∧
      (fetchSuccess page1Recs 1 (fetchSuccess page2Recs 1
        (startFetch (onPageChange 1 (startFetch (onPageChange 0 baseState)))))).artworks = page1Recs ∧
      page1Recs ≠ page2Recs := by
  refine ⟨rfl, by simp [fetchSuccess, page1Recs, baseState, mkArt], ?_⟩
  simp [page1Recs, page2Recs, mkArt]

/-- C1: with a parsed positive count, `handleCustomSelection` leaves the
Selection Set equal to exactly the ids of the first
`min(n, artworks.length)` records of the loaded page, selects those records
in page order as the view, and no id selected before the call survives
unless it is among those records; with no parsed value or a non-positive
one, the state is unchanged. -/
theorem selectFirstN_correct (st : AppState) :
    (∀ n : Int, parseIntJS st.selectCount = some n → 0 < n →
      (handleCustomSelection st).globalSelectedIds
          = (idsOf (st.artworks.take (min n.toNat st.artworks.length))).toFinset ∧
        (handleCustomSelection st).selectedRows
          = st.artworks.take (min n.toNat st.artworks.length) ∧
        ∀ i : Int, i ∈ st.globalSelectedIds →
          i ∉ idsOf (st.artworks.take (min n.toNat st.artworks.length)) →
          i ∉ (handleCustomSelection st).globalSelectedIds) ∧
    ((∀ n : Int, parseIntJS st.selectCount = some n → n ≤ 0) →
      handleCustomSelection st = st) := by
  constructor
  · intro n hp hn
    have hnle : ¬ n ≤ 0 := not_le.mpr hn
    have hstep : handleCustomSelection st =
        { st with
          globalSelectedIds :=
            (st.artworks.take (min n.toNat st.artworks.length)).foldl
              (fun s a => insert a.id s) ∅
          selectedRows := st.artworks.take (min n.toNat st.artworks.length)
          selectCount := "" } := by
      unfold handleCustomSelection
      rw [hp]
      simp [hnle]
    rw [hstep]
    refine ⟨foldl_insert_empty _, rfl, ?_⟩
    intro i _ hnot
    show i ∈ (st.artworks.take (min n.toNat st.artworks.length)).foldl
        (fun s a => insert a.id s) ∅ → False
    rw [foldl_insert_empty]
    intro hmem
    exact hnot (List.mem_toFinset.mp hmem)
  · intro hreject
    unfold handleCustomSelection
    cases hp : parseIntJS st.selectCount with
    | none => rfl
    | some n => simp [hreject n hp]

/-- Witness for C1 at a concrete state: input "2", page of three records. -/
theorem selectFirstN_correct_witness :
    (handleCustomSelection stC1).globalSelectedIds
        = (idsOf (stC1.artworks.take (min (2 : Int).toNat stC1.artworks.length))).toFinset ∧
      (handleCustomSelection stC1).selectedRows
        = stC1.artworks.take (min (2 : Int).toNat stC1.artworks.length) ∧
      ∀ i : Int, i ∈ stC1.globalSelectedIds →
        i ∉ idsOf (stC1.artworks.take (min (2 : Int).toNat stC1.artworks.length)) →
        i ∉ (handleCustomSelection stC1).globalSelectedIds :=
  (selectFirstN_correct stC1).1 2 (by decide) (by decide)

/-- C2 counterexample: `selectFirstN` (handleCustomSelection) is one of the
listed Selection Mutators, yet it removes id 99, which is selected and not
among the loaded page's records, refuting the claim as stated. -/
theorem selectFirstN_breaks_frame :
    (99 : Int) ∉ idsOf stC2.artworks ∧
      (99 : Int) ∈ stC2.globalSelectedIds ∧
      (99 : Int) ∉ (handleCustomSelection stC2).globalSelectedIds := by decide

/-- C2 (amended): `toggleSelection` called with a selection drawn from the
loaded page's records, and `toggleSelectAllOnPage`, never change the
membership of an identifier that is not among the loaded page's records;
`selectFirstN` is excluded, as it clears the whole Selection Set. -/
theorem mutator_frame (st : AppState) (i : Int) (hi : i ∉ idsOf st.artworks) :
    (∀ newSel : List Artwork, (∀ a ∈ newSel, a ∈ st.artworks) →
        (i ∈ (onSelectionChange newSel st).globalSelectedIds ↔
          i ∈ st.globalSelectedIds)) ∧
      (i ∈ (handleSelectAll st).globalSelectedIds ↔
        i ∈ st.globalSelectedIds) := by
  constructor
  · intro newSel hsub
    show i ∈ newSel.foldl (fun s a => insert a.id s)
        (st.artworks.foldl (fun s a => s.erase a.id) st.globalSelectedIds) ↔ _
    rw [mem_foldl_insert, mem_foldl_erase]
    constructor
    · rintro (⟨hg, _⟩ | hmem)
      · exact hg
      · exfalso
        obtain ⟨a, ha, rfl⟩ := List.mem_map.mp hmem
        exact hi (List.mem_map.mpr ⟨a, hsub a ha, rfl⟩)
    · intro hg
      exact Or.inl ⟨hg, hi⟩
  · unfold handleSelectAll
    split
    · show i ∈ st.artworks.foldl (fun s a => s.erase a.id) st.globalSelectedIds ↔ _
      rw [mem_foldl_erase]
      exact ⟨fun h => h.1, fun h => ⟨h, hi⟩⟩
    · show i ∈ st.artworks.foldl (fun s a => insert a.id s) st.globalSelectedIds ↔ _
      rw [mem_foldl_insert]
      constructor
      · rintro (h | h)
        · exact h
        · exact absurd h hi
      · exact Or.inl

/-- Witness for the amended C2 at a concrete state. -/
theorem mutator_frame_witness :
    ((99 : Int) ∈ (onSelectionChange [mkArt 1] stC2w).globalSelectedIds ↔
        (99 : Int) ∈ stC2w.globalSelectedIds) ∧
      ((99 : Int) ∈ (handleSelectAll stC2w).globalSelectedIds ↔
        (99 : Int) ∈ stC2w.globalSelectedIds) :=
  ⟨(mutator_frame stC2w 99 (by decide)).1 [mkArt 1] (by decide),
   (mutator_frame stC2w 99 (by decide)).2⟩

/-- C3: `toggleSelection` (onSelectionChange) with a selection drawn from
the loaded page leaves the Selection Set equal to
(old set minus the page's ids) union the new selection's ids. -/
theorem toggleSelection_correct (st : AppState) (newSel : List Artwork)
    (hsub : newSel.Sublist st.artworks) (i : Int) :
    i ∈ (onSelectionChange newSel st).globalSelectedIds ↔
      (i ∈ st.globalSelectedIds ∧ i ∉ idsOf st.artworks) ∨ i ∈ idsOf newSel := by
  show i ∈ newSel.foldl (fun s a => insert a.id s)
      (st.artworks.foldl (fun s a => s.erase a.id) st.globalSelectedIds) ↔ _
  rw [mem_foldl_insert, mem_foldl_erase]

/-- Witness for C3 at a concrete state: page ids 1 and 2; ids 1 and 99
previously selected; new page selection is the first record. -/
theorem toggleSelection_correct_witness :
    (99 : Int) ∈ (onSelectionChange [mkArt 1] stC3).globalSelectedIds ↔
      ((99 : Int) ∈ stC3.globalSelectedIds ∧ (99 : Int) ∉ idsOf stC3.artworks) ∨
        (99 : Int) ∈ idsOf [mkArt 1] :=
  toggleSelection_correct stC3 [mkArt 1] (by decide) 99

/-- C4 counterexample: on a partially selected page (view consistent with
the Selection Set), toggling twice does not restore the original state —
id 1 was selected and ends deselected, and the view changes. -/
theorem toggleAll_twice_not_involutive :
    ViewConsistent stC4 ∧
      (1 : Int) ∈ stC4.globalSelectedIds ∧
      (handleSelectAll (handleSelectAll stC4)).selectedRows ≠ stC4.selectedRows ∧
      (1 : Int) ∉ (handleSelectAll (handleSelectAll stC4)).globalSelectedIds := by
  refine ⟨?_, by decide, by decide, by decide⟩
  show stC4.selectedRows = stC4.artworks.filter (fun a => a.id ∈ stC4.globalSelectedIds)
  decide

/-- C4 (amended): with a consistent view, toggling twice restores the
original Page Selection View and the original page-id memberships whenever
the page was fully selected or not selected at all; for a partially
selected page two toggles yield the empty view instead. -/
theorem toggleAll_twice_restores_of_not_partial (st : AppState)
    (hinv : ViewConsistent st)
    (hfp : st.selectedRows.length = st.artworks.length ∨ st.selectedRows = []) :
    (handleSelectAll (handleSelectAll st)).selectedRows = st.selectedRows ∧
      ∀ a ∈ st.artworks,
        (a.id ∈ (handleSelectAll (handleSelectAll st)).globalSelectedIds ↔
          a.id ∈ st.globalSelectedIds) := by
  by_cases hc : st.selectedRows.length = st.artworks.length
  · have hfull : st.artworks.filter (fun a => a.id ∈ st.globalSelectedIds) = st.artworks :=
      (List.filter_sublist st.artworks).eq_of_length (by rw [← hinv]; exact hc)
    have hmem : ∀ a ∈ st.artworks, a.id ∈ st.globalSelectedIds := by
      intro a ha
      simpa using List.filter_eq_self.mp hfull a ha
    have h1 : handleSelectAll st =
        { st with
          globalSelectedIds :=
            st.artworks.foldl (fun s a => s.erase a.id) st.globalSelectedIds
          selectedRows := [] } := by
      unfold handleSelectAll
      rw [if_pos hc]
    by_cases hA : st.artworks = []
    · have h2 : handleSelectAll (handleSelectAll st) =
          { st with
            globalSelectedIds :=
              st.artworks.foldl (fun s a => s.erase a.id)
                (st.artworks.foldl (fun s a => s.erase a.id) st.globalSelectedIds)
            selectedRows := [] } := by
        rw [h1]
        unfold handleSelectAll
        rw [if_pos]
        simp [hA]
      constructor
      · rw [h2, hinv, hA]
        rfl
      · intro a ha
        rw [hA] at ha
        cases ha
    · have hlen : ¬ ([] : List Artwork).length = st.artworks.length := by
        simp [eq_comm, hA]
      have h2 : handleSelectAll (handleSelectAll st) =
          { st with
            globalSelectedIds :=
              st.artworks.foldl (fun s a => insert a.id s)
                (st.artworks.foldl (fun s a => s.erase a.id) st.globalSelectedIds)
            selectedRows := st.artworks } := by
        rw [h1]
        unfold handleSelectAll
        rw [if_neg hlen]
      constructor
      · rw [h2, hinv, hfull]
      · intro a ha
        rw [h2]
        have hl : a.id ∈ st.artworks.foldl (fun s a => insert a.id s)
            (st.artworks.foldl (fun s a => s.erase a.id) st.globalSelectedIds) := by
          rw [mem_foldl_insert]
          exact Or.inr (List.mem_map.mpr ⟨a, ha, rfl⟩)
        exact iff_of_true hl (hmem a ha)
  · have hr : st.selectedRows = [] := hfp.resolve_left hc
    have hA : st.artworks ≠ [] := by
      intro h
      exact hc (by rw [hr, h])
    have hnone : ∀ a ∈ st.artworks, a.id ∉ st.globalSelectedIds := by
      intro a ha
      have h0 : st.artworks.filter (fun a => a.id ∈ st.globalSelectedIds) = [] := by
        rw [← hinv]
        exact hr
      simpa using List.filter_eq_nil_iff.mp h0 a ha
    have h1 : handleSelectAll st =
        { st with
          globalSelectedIds :=
            st.artworks.foldl (fun s a => insert a.id s) st.globalSelectedIds
          selectedRows := st.artworks } := by
      unfold handleSelectAll
      rw [if_neg hc]
    have h2 : handleSelectAll (handleSelectAll st) =
        { st with
          globalSelectedIds :=
            st.artworks.foldl (fun s a => s.erase a.id)
              (st.artworks.foldl (fun s a => insert a.id s) st.globalSelectedIds)
          selectedRows := [] } := by
      rw [h1]
      unfold handleSelectAll
      rw [if_pos rfl]
    constructor
    · rw [h2, hr]
    · intro a ha
      rw [h2]
      have hl : a.id ∉ st.artworks.foldl (fun s a => s.erase a.id)
          (st.artworks.foldl (fun s a => insert a.id s) st.globalSelectedIds) := by
        rw [mem_foldl_erase]
        rintro ⟨-, hno⟩
        exact hno (List.mem_map.mpr ⟨a, ha, rfl⟩)
      exact iff_of_false hl (hnone a ha)

/-- Witness for the amended C4 at a fully selected one-record page. -/
theorem toggleAll_twice_restores_witness :
    (handleSelectAll (handleSelectAll stC4w)).selectedRows = stC4w.selectedRows ∧
      ∀ a ∈ stC4w.artworks,
        (a.id ∈ (handleSelectAll (handleSelectAll stC4w)).globalSelectedIds ↔
          a.id ∈ stC4w.globalSelectedIds) :=
  toggleAll_twice_restores_of_not_partial stC4w
    (show stC4w.selectedRows
        = stC4w.artworks.filter (fun a => a.id ∈ stC4w.globalSelectedIds) by decide)
    (Or.inl (by decide))

/-- C7: an id put into the Selection Set by `onSelectionChange` or by the
selecting branch of `handleSelectAll` on page A survives navigating to
page B and back to page A (both fetches succeeding, no mutator in
between), and its record reappears in page A's view. -/
theorem navigation_preserves_selection (st : AppState) (X : Artwork)
    (pageA pageB : List Artwork) (pA pB tA tB : Int) (hX : X ∈ pageA) :
    (∀ newSel : List Artwork, X ∈ newSel →
        X.id ∈ (navigateAwayAndBack pA pB tA tB pageA pageB
            (onSelectionChange newSel st)).globalSelectedIds ∧
          X ∈ (navigateAwayAndBack pA pB tA tB pageA pageB
            (onSelectionChange newSel st)).selectedRows) ∧
      (st.selectedRows.length ≠ st.artworks.length → X ∈ st.artworks →
        X.id ∈ (navigateAwayAndBack pA pB tA tB pageA pageB
            (handleSelectAll st)).globalSelectedIds ∧
          X ∈ (navigateAwayAndBack pA pB tA tB pageA pageB
            (handleSelectAll st)).selectedRows) := by
  have hnav : ∀ s : AppState,
      (navigateAwayAndBack pA pB tA tB pageA pageB s).globalSelectedIds
        = s.globalSelectedIds := fun s => rfl
  have hview : ∀ s : AppState,
      (navigateAwayAndBack pA pB tA tB pageA pageB s).selectedRows
        = pageA.filter (fun a => a.id ∈ s.globalSelectedIds) := fun s => rfl
  constructor
  · intro newSel hnew
    have hid : X.id ∈ (onSelectionChange newSel st).globalSelectedIds := by
      show X.id ∈ newSel.foldl (fun s a => insert a.id s)
        (st.artworks.foldl (fun s a => s.erase a.id) st.globalSelectedIds)
      rw [mem_foldl_insert]
      exact Or.inr (List.mem_map.mpr ⟨X, hnew, rfl⟩)
    refine ⟨by rw [hnav]; exact hid, ?_⟩
    rw [hview]
    exact List.mem_filter.mpr ⟨hX, by simpa using hid⟩
  · intro hne hXa
    have hid : X.id ∈ (handleSelectAll st).globalSelectedIds := by
      unfold handleSelectAll
      rw [if_neg hne]
      show X.id ∈ st.artworks.foldl (fun s a => insert a.id s) st.globalSelectedIds
      rw [mem_foldl_insert]
      exact Or.inr (List.mem_map.mpr ⟨X, hXa, rfl⟩)
    refine ⟨by rw [hnav]; exact hid, ?_⟩
    rw [hview]
    exact List.mem_filter.mpr ⟨hX, by simpa using hid⟩

/-- Witness for C7: select the record with id 1 on a two-record page,
navigate away and back. -/
theorem navigation_preserves_selection_witness :
    (mkArt 1).id ∈ (navigateAwayAndBack 0 1 5 5 [mkArt 1] [mkArt 2]
        (onSelectionChange [mkArt 1] stC7)).globalSelectedIds ∧
      mkArt 1 ∈ (navigateAwayAndBack 0 1 5 5 [mkArt 1] [mkArt 2]
        (onSelectionChange [mkArt 1] stC7)).selectedRows :=
  (navigation_preserves_selection stC7 (mkArt 1) [mkArt 1] [mkArt 2]
    0 1 5 5 (by decide)).1 [mkArt 1] (by decide)

theorem filter_mem_ids_of_sublist {s l : List Artwork} (hs : s.Sublist l) :
    (idsOf l).Nodup → l.filter (fun a => a.id ∈ idsOf s) = s := by
  induction hs with
  | slnil => intro _; rfl
  | cons a hsub ih =>
      rename_i s2 l2
      intro hnd
      unfold idsOf at hnd
      rw [List.map_cons, List.nodup_cons] at hnd
      obtain ⟨hna, hnd2⟩ := hnd
      have hpa : a.id ∉ idsOf s2 := by
        intro hmem
        exact hna ((hsub.map (fun x => x.id)).subset hmem)
      rw [List.filter_cons, if_neg (by simpa using hpa)]
      exact ih hnd2
  | cons₂ a hsub ih =>
      rename_i s2 l2
      intro hnd
      unfold idsOf at hnd
      rw [List.map_cons, List.nodup_cons] at hnd
      obtain ⟨hna, hnd2⟩ := hnd
      rw [List.filter_cons, if_pos (by simp [idsOf])]
      have hcongr : l2.filter (fun b => b.id ∈ idsOf (a :: s2))
          = l2.filter (fun b => b.id ∈ idsOf s2) := by
        apply List.filter_congr
        intro b hb
        have hbne : b.id ≠ a.id := by
          intro he
          exact hna (he ▸ List.mem_map.mpr ⟨b, hb, rfl⟩)
        rw [decide_eq_decide]
        simp [idsOf, hbne]
      rw [hcongr, ih hnd2]

/-- C9: every Selection Mutator and every successful fetch re-establish or
keep the reconciliation invariant: the view equals the ordered filter of
the loaded records by membership in the Selection Set, given distinct
record ids on the page and a toggle input drawn from the page in order. -/
theorem view_consistency_invariant (st : AppState)
    (hinv : ViewConsistent st) (hnd : (idsOf st.artworks).Nodup)
    (newSel : List Artwork) (hsub : newSel.Sublist st.artworks)
    (data : List Artwork) (total : Int) :
    ViewConsistent (onSelectionChange newSel st) ∧
      ViewConsistent (handleSelectAll st) ∧
      ViewConsistent (handleCustomSelection st) ∧
      ViewConsistent (fetchSuccess data total st) := by
  refine ⟨?_, ?_, ?_, ?_⟩
  · show newSel = st.artworks.filter (fun a => a.id ∈
        newSel.foldl (fun s a => insert a.id s)
          (st.artworks.foldl (fun s a => s.erase a.id) st.globalSelectedIds))
    have hcongr : st.artworks.filter (fun a => a.id ∈
          newSel.foldl (fun s a => insert a.id s)
            (st.artworks.foldl (fun s a => s.erase a.id) st.globalSelectedIds))
        = st.artworks.filter (fun a => a.id ∈ idsOf newSel) := by
      apply List.filter_congr
      intro b hb
      rw [decide_eq_decide, mem_foldl_insert, mem_foldl_erase]
      have hbin : b.id ∈ idsOf st.artworks := List.mem_map.mpr ⟨b, hb, rfl⟩
      constructor
      · rintro (⟨-, hno⟩ | h)
        · exact absurd hbin hno
        · exact h
      · exact Or.inr
    rw [hcongr, filter_mem_ids_of_sublist hsub hnd]
  · unfold handleSelectAll
    split
    · show ([] : List Artwork) = st.artworks.filter (fun a => a.id ∈
          st.artworks.foldl (fun s a => s.erase a.id) st.globalSelectedIds)
      symm
      rw [List.filter_eq_nil_iff]
      intro a ha
      simp only [decide_eq_true_eq, mem_foldl_erase]
      rintro ⟨-, hno⟩
      exact hno (List.mem_map.mpr ⟨a, ha, rfl⟩)
    · show st.artworks = st.artworks.filter (fun a => a.id ∈
          st.artworks.foldl (fun s a => insert a.id s) st.globalSelectedIds)
      symm
      rw [List.filter_eq_self]
      intro a ha
      simp only [decide_eq_true_eq, mem_foldl_insert]
      exact Or.inr (List.mem_map.mpr ⟨a, ha, rfl⟩)
  · unfold handleCustomSelection
    cases hp : parseIntJS st.selectCount with
    | none => exact hinv
    | some c =>
        by_cases hcle : c ≤ 0
        · simp only [if_pos hcle]
          exact hinv
        · simp only [if_neg hcle]
          have hcongr : st.artworks.filter (fun a => a.id ∈
                (st.artworks.take (min c.toNat st.artworks.length)).foldl
                  (fun s a => insert a.id s) (∅ : Finset Int))
              = st.artworks.filter (fun a =>
                  a.id ∈ idsOf (st.artworks.take (min c.toNat st.artworks.length))) := by
            apply List.filter_congr
            intro b _
            rw [decide_eq_decide, mem_foldl_insert]
            simp
          exact (hcongr.trans
            (filter_mem_ids_of_sublist (List.take_sublist _ st.artworks) hnd)).symm
  · show data.filter (fun a => a.id ∈ st.globalSelectedIds)
        = data.filter (fun a => a.id ∈ (fetchSuccess data total st).globalSelectedIds)
    rfl

/-- Witness for C9 at a concrete state: two records, nothing selected,
toggling the first record, then each operation in turn. -/
theorem view_consistency_invariant_witness :
    ViewConsistent (onSelectionChange [mkArt 1] stC9) ∧
      ViewConsistent (handleSelectAll stC9) ∧
      ViewConsistent (handleCustomSelection stC9) ∧
      ViewConsistent (fetchSuccess [mkArt 3] 7 stC9) :=
  view_consistency_invariant stC9
    (show stC9.selectedRows
        = stC9.artworks.filter (fun a => a.id ∈ stC9.globalSelectedIds) by decide)
    (by decide) [mkArt 1] (by decide) [mkArt 3] 7

/-- C10: `handleCustomSelection` declines, leaving the state unchanged,
exactly when `parseInt` of the input yields no value (NaN) or a
non-positive one; a string with a numeric prefix such as "3.7" or "5x" is
accepted as its leading integer 3 or 5, while "abc" is rejected. -/
theorem customSelection_parse_boundary (st : AppState) :
    ((∀ n : Int, parseIntJS st.selectCount = some n → n ≤ 0) →
        handleCustomSelection st = st) ∧
      (∀ n : Int, parseIntJS st.selectCount = some n → 0 < n →
        (handleCustomSelection st).selectedRows
            = st.artworks.take (min n.toNat st.artworks.length) ∧
          (handleCustomSelection st).selectCount = "") ∧
      parseIntJS "3.7" = some 3 ∧ parseIntJS "5x" = some 5 ∧
      parseIntJS "abc" = none := by
  refine ⟨?_, ?_, by decide, by decide, by decide⟩
  · intro hreject
    unfold handleCustomSelection
    cases hp : parseIntJS st.selectCount with
    | none => rfl
    | some n => simp [hreject n hp]
  · intro n hp hn
    have hnle : ¬ n ≤ 0 := not_le.mpr hn
    have hstep : handleCustomSelection st =
        { st with
          globalSelectedIds :=
            (st.artworks.take (min n.toNat st.artworks.length)).foldl
              (fun s a => insert a.id s) ∅
          selectedRows := st.artworks.take (min n.toNat st.artworks.length)
          selectCount := "" } := by
      unfold handleCustomSelection
      rw [hp]
      simp [hnle]
    rw [hstep]
    exact ⟨rfl, rfl⟩

/-- Witness for C10: the input "3.7" selects the first three records of a
four-record page and clears the input field. -/
theorem customSelection_parse_boundary_witness :
    (handleCustomSelection stC10).selectedRows
        = stC10.artworks.take (min (3 : Int).toNat stC10.artworks.length) ∧
      (handleCustomSelection stC10).selectCount = "" :=
  (customSelection_parse_boundary stC10).2.1 3 (by decide) (by decide)
